import Mathlib

/-!
Verification development for the gl2gh batch-migration tool
(migrate GitLab repositories to GitHub).

The only orchestration-relevant code present in the repository snapshot is
`src/github/client.js` (the GitHub HTTP client with `createRepo` and
`_getRequestOptions`).  The orchestration core itself — Repository
Directory, Action Executor, Idempotency Classifier, Report Aggregator and
the CLI exit-code mapping — is exercised by `test/js/cliSpec.js` but its
implementation files are not part of the snapshot; those components are
modelled from the specification, each such definition carrying a doc
comment that starts with `Modelled from the spec:`.
-/

namespace Gl2gh

/-- A RepositoryRef: source-platform project path or target-platform
repository name.  Its identity is the path/name string (spec §3), so it is
embedded as a `String`. -/
abbrev RepositoryRef := String

/-- Outcome of applying one action to one RepositoryRef (spec §3): one of
`Applied`, `AlreadySatisfied(reason)`, `Failed(error)`. -/
inductive Outcome where
  | applied
  | alreadySatisfied (reason : String)
  | failed (error : String)
deriving DecidableEq, Repr

/-- Discriminator: is this outcome a `Failed`? -/
def Outcome.isFailed : Outcome → Bool
  | .failed _ => true
  | _ => false

/-- Discriminator: is this outcome an `AlreadySatisfied`? -/
def Outcome.isAlreadySatisfied : Outcome → Bool
  | .alreadySatisfied _ => true
  | _ => false

/-- Discriminator: is this outcome an `Applied`? -/
def Outcome.isApplied : Outcome → Bool
  | .applied => true
  | _ => false

/-- MigrationReport: ordered sequence of (RepositoryRef, Outcome) pairs
(spec §3). -/
abbrev MigrationReport := List (RepositoryRef × Outcome)

namespace GithubClient

/-- The repository value object built by `createRepo` from the response
body: `new Repository(JSON.parse(data).name, JSON.parse(data).clone_url)`
(`src/github/client.js`, line 24; the `Repository` constructor simply
stores its two arguments). -/
structure Repository where
  name : String
  cloneUrl : String
deriving DecidableEq, Repr

/-- The parsed JSON body of a GitHub response, restricted to the fields
`createRepo` reads: `name` and `clone_url`. -/
structure ResponseBody where
  name : String
  clone_url : String
deriving DecidableEq, Repr

/-- The observable event that settles one `https.request` issued by
`createRepo`: either the response completes with a status code and an
accumulated body (the `res.on('end')` handler), or the request emits a
transport-level error (the `req.on('error')` handler). -/
inductive ReqEvent where
  | response (statusCode : Nat) (body : ResponseBody)
  | transportError
deriving DecidableEq, Repr

/-- A rejection value: the client rejects with an object holding a single
`message` field (`src/github/client.js`, lines 26-28 and 33-37). -/
structure RejectionMessage where
  message : String
deriving DecidableEq, Repr

/-- Settlement of the promise returned by `createRepo`
(`src/github/client.js`, lines 13-45): on `res.statusCode === 201` it
resolves with `new Repository(body.name, body.clone_url)`; any other
status rejects with message `Unable to create repo with name {repoName}`;
a request error rejects with message `Error while creating repo`. -/
def createRepo (repoName : String) (ev : ReqEvent) :
    Except RejectionMessage Repository :=
  match ev with
  | ReqEvent.response statusCode body =>
      if statusCode = 201 then
        Except.ok { name := body.name, cloneUrl := body.clone_url }
      else
        Except.error { message := "Unable to create repo with name " ++ repoName }
  | ReqEvent.transportError =>
      Except.error { message := "Error while creating repo" }

/-- The request options object built by `_getRequestOptions`
(`src/github/client.js`, lines 48-59). -/
structure RequestOptions where
  host : String
  port : Nat
  path : String
  method : String
  contentType : String
  authorization : String
deriving DecidableEq, Repr

/-- `_getRequestOptions(method, path)` (`src/github/client.js`,
lines 48-59): host is the configured url, port 443, the given path and
method, `Content-Type: application/json`, and an Authorization header
computed as `'token' + this.privateToken`. -/
def getRequestOptions (url privateToken method path : String) : RequestOptions :=
  { host := url
    port := 443
    path := path
    method := method
    contentType := "application/json"
    authorization := "token" ++ privateToken }

/-- The JSON body written by `createRepo`:
`JSON.stringify({"name": repoName, "private": isPrivate})`
(`src/github/client.js`, lines 38-43).  The field `isPrivate` embeds the
JSON key `"private"`. -/
structure CreateRepoBody where
  name : String
  isPrivate : Bool
deriving DecidableEq, Repr

/-- The full outbound request assembled by `createRepo`
(`src/github/client.js`, lines 8-44): options from
`_getRequestOptions('POST', '/user/repos/')` and the JSON body
`{name, private}`.  Note the function takes no organization argument:
`createRepo(repoName, isPrivate)` is the whole signature. -/
structure CreateRepoRequest where
  options : RequestOptions
  body : CreateRepoBody
deriving DecidableEq, Repr

/-- Assembly of the request issued by one `createRepo(repoName, isPrivate)`
call (`src/github/client.js`, lines 8-44). -/
def createRepoRequest (url privateToken repoName : String) (isPrivate : Bool) :
    CreateRepoRequest :=
  { options := getRequestOptions url privateToken "POST" "/user/repos/"
    body := { name := repoName, isPrivate := isPrivate } }

end GithubClient

/-! ### Lexicographic order on repository names

Repository names are compared lexicographically by character code
(ascending), the "sorted lexicographically by repository name ascending"
contract of spec §4.1.  The comparison is written over `String.data` so
that it is executable by the kernel. -/

/-- Lexicographic comparison of character lists by character code. -/
def charListLe : List Char → List Char → Bool
  | [], _ => true
  | _ :: _, [] => false
  | a :: as, b :: bs =>
    if a.toNat < b.toNat then true
    else if b.toNat < a.toNat then false
    else charListLe as bs

/-- Lexicographic comparison of repository names (ascending). -/
def nameLe (a b : String) : Bool := charListLe a.data b.data

/-- Does the first character list occur as a leading segment of the
second?  Case-sensitive, character-code equality. -/
def charListIsPrefix : List Char → List Char → Bool
  | [], _ => true
  | _ :: _, [] => false
  | a :: as, b :: bs => if a.toNat = b.toNat then charListIsPrefix as bs else false

/-- Does `name` start with `pfx` (case-sensitive)?  Spec §4.1 filtering. -/
def nameStartsWith (pfx name : String) : Bool := charListIsPrefix pfx.data name.data

theorem charListLe_total : ∀ a b : List Char, charListLe a b = true ∨ charListLe b a = true := by
  intro a
  induction a with
  | nil => intro b; left; rfl
  | cons x xs ih =>
    intro b
    cases b with
    | nil => right; rfl
    | cons y ys =>
      rcases Nat.lt_trichotomy x.toNat y.toNat with hlt | heq | hgt
      · left; simp [charListLe, hlt]
      · rcases ih ys with h | h
        · left; simp [charListLe, heq, Nat.lt_irrefl, h]
        · right; simp [charListLe, heq, Nat.lt_irrefl, h]
      · right; simp [charListLe, hgt]

theorem charListLe_trans : ∀ a b c : List Char,
    charListLe a b = true → charListLe b c = true → charListLe a c = true := by
  intro a
  induction a with
  | nil => intro b c _ _; rfl
  | cons x xs ih =>
    intro b c hab hbc
    cases b with
    | nil => simp [charListLe] at hab
    | cons y ys =>
      cases c with
      | nil => simp [charListLe] at hbc
      | cons z zs =>
        by_cases hxy : x.toNat < y.toNat
        · by_cases hyz : y.toNat < z.toNat
          · simp [charListLe, Nat.lt_trans hxy hyz]
          · by_cases hzy : z.toNat < y.toNat
            · simp [charListLe, hyz, hzy] at hbc
            · have hyz' : y.toNat = z.toNat := Nat.le_antisymm (Nat.le_of_not_lt hzy) (Nat.le_of_not_lt hyz)
              simp [charListLe, hyz' ▸ hxy]
        · by_cases hyx : y.toNat < x.toNat
          · simp [charListLe, hxy, hyx] at hab
          · have hxy' : x.toNat = y.toNat := Nat.le_antisymm (Nat.le_of_not_lt hyx) (Nat.le_of_not_lt hxy)
            by_cases hyz : y.toNat < z.toNat
            · simp [charListLe, hxy' ▸ hyz]
            · by_cases hzy : z.toNat < y.toNat
              · simp [charListLe, hyz, hzy] at hbc
              · have hab' : charListLe xs ys = true := by
                  simpa [charListLe, hxy, hyx] using hab
                have hbc' : charListLe ys zs = true := by
                  simpa [charListLe, hyz, hzy] using hbc
                have hxz : ¬ x.toNat < z.toNat ∧ ¬ z.toNat < x.toNat := by
                  constructor <;> omega
                simp [charListLe, hxz.1, hxz.2, ih ys zs hab' hbc']

theorem charListLe_antisymm : ∀ a b : List Char,
    charListLe a b = true → charListLe b a = true → a = b := by
  intro a
  induction a with
  | nil =>
    intro b _ hba
    cases b with
    | nil => rfl
    | cons y ys => simp [charListLe] at hba
  | cons x xs ih =>
    intro b hab hba
    cases b with
    | nil => simp [charListLe] at hab
    | cons y ys =>
      by_cases hxy : x.toNat < y.toNat
      · simp [charListLe, hxy, Nat.lt_asymm hxy] at hba
      · by_cases hyx : y.toNat < x.toNat
        · simp [charListLe, hxy, hyx] at hab
        · have hxy' : x.toNat = y.toNat := Nat.le_antisymm (Nat.le_of_not_lt hyx) (Nat.le_of_not_lt hxy)
          have hchar : x = y := Char.ext (UInt32.ext hxy')
          have hab' : charListLe xs ys = true := by simpa [charListLe, hxy, hyx] using hab
          have hba' : charListLe ys xs = true := by simpa [charListLe, hxy, hyx] using hba
          rw [hchar, ih ys hab' hba']

instance nameLeIsTotal : IsTotal String (fun a b => nameLe a b = true) :=
  ⟨fun a b => charListLe_total a.data b.data⟩

instance nameLeIsTrans : IsTrans String (fun a b => nameLe a b = true) :=
  ⟨fun a b c => charListLe_trans a.data b.data c.data⟩

instance nameLeIsAntisymm : IsAntisymm String (fun a b => nameLe a b = true) :=
  ⟨fun a b hab hba => String.ext (charListLe_antisymm a.data b.data hab hba)⟩

namespace Directory

/-- Modelled from the spec: the Repository Directory
`list(group, prefixFilter?, limit=50)` (spec §4.1; the implementation is
not part of the snapshot).  The group's paginated project listing is given
as the already-fetched `pages`; they are merged into one sequence, the
optional name-prefix filter retains only names starting with the prefix
(case-sensitive, spec §4.1 and §6's server-side `search={prefix}`), the
`limit` caps the count returned (fetching stops once the cap is reached,
so the cap applies to the filtered stream in page order), and the result
is sorted lexicographically by repository name ascending. -/
def list (pages : List (List RepositoryRef)) (pfxFilter : Option String)
    (limit : Nat) : List RepositoryRef :=
  let fetched := pages.flatten
  let retained :=
    match pfxFilter with
    | some pfx => fetched.filter (fun n => nameStartsWith pfx n)
    | none => fetched
  List.insertionSort (fun a b => nameLe a b = true) (retained.take limit)

end Directory

namespace Executor

/-- Modelled from the spec: the Action Executor
`run(ActionRequest, Applier) -> MigrationReport` (spec §4.3; the
implementation is not part of the snapshot).  It drives the Applier over
the repositories in the list's given order; each invocation is
independent, a `Failed` outcome never aborts the run, and exactly one
(RepositoryRef, Outcome) entry is produced per input item, in input
order.  The `applier` argument is the composition of the per-action
Applier with the Idempotency Classifier. -/
def run (applier : RepositoryRef → Outcome) (repos : List RepositoryRef) :
    MigrationReport :=
  repos.map (fun r => (r, applier r))

/-- Modelled from the spec: the Executor "buffers results and
re-orders/collects them by original index before producing the
MigrationReport" (spec §5).  `buffer` holds index-tagged entries in
completion order; the report reads them back in original-index order. -/
def collectByIndex (n : Nat) (buffer : List (Nat × (RepositoryRef × Outcome))) :
    MigrationReport :=
  (List.range n).filterMap (fun i => (buffer.find? (fun p => p.fst == i)).map Prod.snd)

/-- Modelled from the spec: a run whose Applier calls complete in the
arbitrary order `completionOrder` (a permutation of the input indices,
spec §5): each completed call appends its index-tagged entry to the
buffer, and the report is collected by original index. -/
def runWithCompletionOrder (applier : RepositoryRef → Outcome)
    (repos : List RepositoryRef) (completionOrder : List Nat) : MigrationReport :=
  collectByIndex repos.length
    (completionOrder.filterMap (fun i => (repos.get? i).map (fun r => (i, (r, applier r)))))

/-- In the index-tagged buffer of a run, `find?` on an index present in
`order` returns that index's entry, wherever it sits in the buffer: the
entry is determined by the index, not by the completion position. -/
theorem find_in_buffer (applier : RepositoryRef → Outcome) (repos : List RepositoryRef) :
    ∀ (order : List Nat) (i : Nat) (hlt : i < repos.length), i ∈ order →
      ((order.filterMap (fun j => (repos.get? j).map (fun r => (j, (r, applier r))))).find?
          (fun p => p.fst == i)) =
        some (i, (repos.get ⟨i, hlt⟩, applier (repos.get ⟨i, hlt⟩))) := by
  intro order
  induction order with
  | nil => intro i hlt h; exact absurd h (List.not_mem_nil i)
  | cons j rest ih =>
    intro i hlt hmem
    by_cases hij : j = i
    · subst hij
      rw [List.filterMap_cons_some (by rw [List.get?_eq_get hlt]; rfl)]
      exact List.find?_cons_of_pos _ (by simp)
    · have hrest : i ∈ rest := by
        rcases List.mem_cons.mp hmem with h | h
        · exact absurd h.symm hij
        · exact h
      cases hgj : repos.get? j with
      | none =>
        rw [List.filterMap_cons_none (by rw [hgj]; rfl)]
        exact ih i hlt hrest
      | some r =>
        rw [List.filterMap_cons_some (by rw [hgj]; rfl)]
        rw [List.find?_cons_of_neg _ (by simp [hij])]
        exact ih i hlt hrest

/-- `filterMap` only depends on the function's values on the list. -/
theorem filterMap_congr_mem {α β : Type} {l : List α} {f g : α → Option β}
    (h : ∀ a ∈ l, f a = g a) : l.filterMap f = l.filterMap g := by
  induction l with
  | nil => rfl
  | cons a t ih =>
    rw [List.filterMap_cons, List.filterMap_cons, h a (List.mem_cons_self a t),
      ih (fun x hx => h x (List.mem_cons_of_mem a hx))]

/-- Reading a list back through `get?` over `range` of its length is `map`. -/
theorem range_filterMap_get {α β : Type} (l : List α) (f : α → β) :
    (List.range l.length).filterMap (fun i => (l.get? i).map f) = l.map f := by
  induction l with
  | nil => simp
  | cons a t ih =>
    rw [List.length_cons, List.range_succ_eq_map]
    rw [List.filterMap_cons_some (by rfl)]
    rw [List.filterMap_map]
    have hcomp : ((fun i => ((a :: t).get? i).map f) ∘ Nat.succ) = fun i => (t.get? i).map f := by
      funext i
      simp [Function.comp]
    rw [List.map_cons, hcomp, ih]

/-- The first components of a run's report are the input refs, in order. -/
theorem run_map_fst (applier : RepositoryRef → Outcome) (repos : List RepositoryRef) :
    (Executor.run applier repos).map Prod.fst = repos := by
  induction repos with
  | nil => rfl
  | cons a t ih =>
    simp only [Executor.run, List.map_cons] at ih ⊢
    rw [ih]

end Executor

namespace Classifier

/-- The closed set of migration action kinds (spec §2, §4.4). -/
inductive ActionKind where
  | branchProtection
  | webhook
  | defaultBranch
  | autoDeleteBranches
  | archive
  | contentCopy
deriving DecidableEq, Repr

/-- Modelled from the spec: the platform response seen by the Idempotency
Classifier (spec §4.2; the classifier implementation is not part of the
snapshot).  `statusCode = none` stands for a transport-level failure;
`message` is the human-readable message from the response body;
`hookMatchesPayloadUrl` abstracts "a body indicating a hook already
targets the same payload URL". -/
structure RawResponse where
  statusCode : Option Nat
  message : String
  hookMatchesPayloadUrl : Bool
deriving DecidableEq, Repr

/-- Is a status code in the 2xx success range? -/
def is2xx (s : Nat) : Bool := decide (200 ≤ s) && decide (s < 300)

/-- Modelled from the spec: `classify(actionKind, response) -> Outcome`
(spec §4.2; the classifier implementation is not part of the snapshot).
Webhook creation answering 422 with a body indicating a hook already
targeting the same payload URL is `AlreadySatisfied`; any 2xx response is
`Applied`; any other non-2xx response, or a transport-level failure, is
`Failed`. -/
def classify (kind : ActionKind) (r : RawResponse) : Outcome :=
  match r.statusCode with
  | none => Outcome.failed "transport failure"
  | some s =>
      if kind = ActionKind.webhook ∧ s = 422 ∧ r.hookMatchesPayloadUrl = true then
        Outcome.alreadySatisfied r.message
      else if is2xx s then
        Outcome.applied
      else
        Outcome.failed r.message

/-- Modelled from the spec: the response signature of applying an action
to a repository that is already in the desired state (spec §4.2): webhook
creation answers 422 with a body indicating an existing hook on the same
payload URL; the remaining actions are naturally idempotent — re-applying
the same desired state succeeds with a 2xx. -/
def desiredStateResponse (kind : ActionKind) (r : RawResponse) : Bool :=
  match kind, r.statusCode with
  | ActionKind.webhook, some s => (s == 422) && r.hookMatchesPayloadUrl
  | ActionKind.webhook, none => false
  | _, some s => is2xx s
  | _, none => false

end Classifier

namespace Aggregator

/-- Modelled from the spec: the derived summary of a MigrationReport —
counts of each outcome kind (spec §3; the aggregator implementation is
not part of the snapshot). -/
structure Summary where
  applied : Nat
  alreadySatisfied : Nat
  failed : Nat
deriving DecidableEq, Repr

/-- Modelled from the spec: summary counts of each outcome kind (spec §3). -/
def summarize (report : MigrationReport) : Summary :=
  { applied := (report.filter (fun e => e.snd.isApplied)).length
    alreadySatisfied := (report.filter (fun e => e.snd.isAlreadySatisfied)).length
    failed := (report.filter (fun e => e.snd.isFailed)).length }

/-- Modelled from the spec: the process exit code the CLI layer derives
from a finalized MigrationReport — "the caller exits non-zero if
`MigrationReport.summary.failed > 0`" (spec §6, §7; the CLI
implementation is not part of the snapshot).  The non-zero code is 1. -/
def exitCode (report : MigrationReport) : Nat :=
  if 0 < (summarize report).failed then 1 else 0

/-- A report containing a Failed entry has a positive failed count. -/
theorem summarize_failed_pos {report : MigrationReport} {e : RepositoryRef × Outcome}
    (he : e ∈ report) (hf : e.snd.isFailed = true) : 0 < (summarize report).failed := by
  have hmem : e ∈ report.filter (fun x => x.snd.isFailed) :=
    List.mem_filter.mpr ⟨he, hf⟩
  exact List.length_pos.mpr (List.ne_nil_of_mem hmem)

end Aggregator

/-! ## Claim theorems -/

/-- Claim C8: `GithubClient.createRepo` resolves — with a Repository built
from the response body's `name` and `clone_url` — if and only if the HTTP
status is exactly 201; every other status (including other 2xx codes such
as 200) rejects with `Unable to create repo with name {repoName}`, and a
transport-level request error rejects with `Error while creating repo`. -/
theorem createRepo_settlement (repoName : String) :
    (∀ (statusCode : Nat) (body : GithubClient.ResponseBody),
      GithubClient.createRepo repoName (GithubClient.ReqEvent.response statusCode body) =
        if statusCode = 201 then
          Except.ok { name := body.name, cloneUrl := body.clone_url }
        else
          Except.error { message := "Unable to create repo with name " ++ repoName }) ∧
    GithubClient.createRepo repoName GithubClient.ReqEvent.transportError =
      Except.error { message := "Error while creating repo" } :=
  ⟨fun _ _ => rfl, rfl⟩

/-- Claim C9: for every method, path and private token, the request
options built by `GithubClient._getRequestOptions` carry an Authorization
header equal to the concatenation of `"token"` and the private token,
with no separating space between the scheme word and the token value. -/
theorem requestOptions_authorization_header (url privateToken method path : String) :
    (GithubClient.getRequestOptions url privateToken method path).authorization =
      "token" ++ privateToken :=
  rfl

/-- Claim C10: every `GithubClient.createRepo` invocation issues a POST to
the fixed path `/user/repos/` (the authenticated user's root namespace)
with body `{name, private}`; the function takes no organization argument,
so the built request is the same whatever GitHub org was selected for the
migration. -/
theorem createRepo_request_fixed_user_path (url privateToken repoName : String)
    (isPrivate : Bool) :
    (GithubClient.createRepoRequest url privateToken repoName isPrivate).options.method = "POST" ∧
    (GithubClient.createRepoRequest url privateToken repoName isPrivate).options.path = "/user/repos/" ∧
    (GithubClient.createRepoRequest url privateToken repoName isPrivate).body =
      { name := repoName, isPrivate := isPrivate } :=
  ⟨rfl, rfl, rfl⟩

/-- Claim C4, counterexample: HTTP 422 is what GitHub answers to a create
attempt against an already-existing repository, and
`GithubClient.createRepo` rejects it — with the same failure message as
any other non-201 status — so an "already exists" response on create does
produce a failed (rejected) outcome, contradicting the claim. -/
theorem createRepo_already_exists_cex :
    (GithubClient.createRepo "my-repo"
        (GithubClient.ReqEvent.response 422 { name := "my-repo", clone_url := "" })).isOk = false ∧
    GithubClient.createRepo "my-repo"
        (GithubClient.ReqEvent.response 422 { name := "my-repo", clone_url := "" }) =
      Except.error { message := "Unable to create repo with name my-repo" } := by
  constructor
  · rfl
  · have happ : ("Unable to create repo with name " ++ "my-repo" : String) =
        "Unable to create repo with name my-repo" := by decide
    simp [GithubClient.createRepo, happ]

/-- Claim C4, amended: the repository-creation call of the Content Copy
action is not idempotent — `GithubClient.createRepo` rejects every
response whose status is not 201, including the 422 "already exists"
response, with `Unable to create repo with name {repoName}`, so a create
attempt against an already-existing repository produces a failed
(rejected) outcome. -/
theorem createRepo_rejects_any_non201 (repoName : String) (statusCode : Nat)
    (body : GithubClient.ResponseBody) (h : statusCode ≠ 201) :
    GithubClient.createRepo repoName (GithubClient.ReqEvent.response statusCode body) =
      Except.error { message := "Unable to create repo with name " ++ repoName } := by
  simp [GithubClient.createRepo, h]

/-- Witness for `createRepo_rejects_any_non201` at status 422. -/
theorem createRepo_rejects_any_non201_witness :
    (422 : Nat) ≠ 201 ∧
    GithubClient.createRepo "my-repo"
        (GithubClient.ReqEvent.response 422 { name := "n", clone_url := "u" }) =
      Except.error { message := "Unable to create repo with name " ++ "my-repo" } :=
  ⟨by decide, createRepo_rejects_any_non201 "my-repo" 422 _ (by decide)⟩

/-- Claim C1: in every batch of size ≥ 2 in which the Applier yields a
`Failed` outcome for some item `i`, the Executor's `run` still produces
the report entry of every item: the report has exactly one entry per
input RepositoryRef, in input order, each carrying the Outcome of its own
Applier call — the run never short-circuits on the first failure. -/
theorem executor_failure_isolation (applier : RepositoryRef → Outcome)
    (repos : List RepositoryRef) (i : Fin repos.length) (e : String)
    (hsize : 2 ≤ repos.length)
    (hfail : applier (repos.get i) = Outcome.failed e) :
    (Executor.run applier repos).length = repos.length ∧
    (Executor.run applier repos).map Prod.fst = repos ∧
    ∀ j : Fin repos.length,
      (Executor.run applier repos).get? j.val =
        some (repos.get j, applier (repos.get j)) := by
  refine ⟨by simp [Executor.run], Executor.run_map_fst applier repos, ?_⟩
  intro j
  unfold Executor.run
  rw [List.get?_map, List.get?_eq_get j.isLt]
  rfl

/-- Witness for `executor_failure_isolation` on the batch
`["repo-a", "repo-b"]` whose first item fails. -/
theorem executor_failure_isolation_witness :
    2 ≤ (["repo-a", "repo-b"] : List RepositoryRef).length ∧
    (fun r => if r = "repo-a" then Outcome.failed "boom" else Outcome.applied)
        ((["repo-a", "repo-b"] : List RepositoryRef).get ⟨0, by decide⟩) =
      Outcome.failed "boom" ∧
    (Executor.run
        (fun r => if r = "repo-a" then Outcome.failed "boom" else Outcome.applied)
        ["repo-a", "repo-b"]).length =
      (["repo-a", "repo-b"] : List RepositoryRef).length :=
  ⟨by decide, by decide,
    (executor_failure_isolation
      (fun r => if r = "repo-a" then Outcome.failed "boom" else Outcome.applied)
      ["repo-a", "repo-b"] ⟨0, by decide⟩ "boom" (by decide) (by decide)).1⟩

/-- Claim C2: for every completion order of the individual Applier calls
(any permutation of the input indices), the buffered-and-reordered run
produces the sequential reference report, whose entry order is exactly
the input RepositoryRef order. -/
theorem executor_order_preservation (applier : RepositoryRef → Outcome)
    (repos : List RepositoryRef) (completionOrder : List Nat)
    (hperm : completionOrder.Perm (List.range repos.length)) :
    Executor.runWithCompletionOrder applier repos completionOrder =
      Executor.run applier repos ∧
    (Executor.runWithCompletionOrder applier repos completionOrder).map Prod.fst =
      repos := by
  have hmain : Executor.runWithCompletionOrder applier repos completionOrder =
      Executor.run applier repos := by
    unfold Executor.runWithCompletionOrder Executor.collectByIndex
    have hstep : ∀ i ∈ List.range repos.length,
        ((completionOrder.filterMap
            (fun j => (repos.get? j).map (fun r => (j, (r, applier r))))).find?
          (fun p => p.fst == i)).map Prod.snd =
          (repos.get? i).map (fun r => (r, applier r)) := by
      intro i hi
      have hilt : i < repos.length := List.mem_range.mp hi
      have hin : i ∈ completionOrder := hperm.mem_iff.mpr hi
      rw [Executor.find_in_buffer applier repos completionOrder i hilt hin,
        List.get?_eq_get hilt]
      rfl
    rw [Executor.filterMap_congr_mem hstep,
      Executor.range_filterMap_get repos (fun r => (r, applier r))]
    rfl
  exact ⟨hmain, by rw [hmain]; exact Executor.run_map_fst applier repos⟩

/-- Witness for `executor_order_preservation` on a three-item batch whose
calls complete in the order third, first, second. -/
theorem executor_order_preservation_witness :
    ([2, 0, 1] : List Nat).Perm
      (List.range (["a", "b", "c"] : List RepositoryRef).length) ∧
    Executor.runWithCompletionOrder (fun _ => Outcome.applied) ["a", "b", "c"] [2, 0, 1] =
      Executor.run (fun _ => Outcome.applied) ["a", "b", "c"] :=
  ⟨by decide,
    (executor_order_preservation (fun _ => Outcome.applied) ["a", "b", "c"] [2, 0, 1]
      (by decide)).1⟩

/-- Claim C3, counterexample: under the classifier of spec §4.2, the
naturally idempotent actions classify the 2xx response of re-applying the
already-reached desired state as `Applied`, not `AlreadySatisfied` — here
archiving an already-archived project answers 200 and is classified
`Applied` — so "applying an action to a repository already in the desired
state yields AlreadySatisfied" fails (although it is indeed never
`Failed`). -/
theorem classifier_already_satisfied_cex :
    Classifier.desiredStateResponse Classifier.ActionKind.archive
      { statusCode := some 200, message := "ok", hookMatchesPayloadUrl := false } = true ∧
    (Classifier.classify Classifier.ActionKind.archive
      { statusCode := some 200, message := "ok", hookMatchesPayloadUrl := false }).isAlreadySatisfied
      = false := by
  decide

/-- Claim C3, amended: a webhook-creation response with HTTP status 422
whose body indicates a hook already targets the same payload URL is
classified `AlreadySatisfied` and never `Failed`; more generally, the
response of applying an action to a repository already in the desired
state is never classified `Failed` — webhook re-creation classifies
`AlreadySatisfied`, while the naturally idempotent actions classify their
2xx re-apply response as `Applied`. -/
theorem classifier_idempotency (r : Classifier.RawResponse) :
    (r.statusCode = some 422 → r.hookMatchesPayloadUrl = true →
      Classifier.classify Classifier.ActionKind.webhook r =
        Outcome.alreadySatisfied r.message ∧
      (Classifier.classify Classifier.ActionKind.webhook r).isFailed = false) ∧
    (∀ kind, Classifier.desiredStateResponse kind r = true →
      (Classifier.classify kind r).isFailed = false) := by
  constructor
  · intro h422 hhook
    have hcls : Classifier.classify Classifier.ActionKind.webhook r =
        Outcome.alreadySatisfied r.message := by
      simp [Classifier.classify, h422, hhook]
    exact ⟨hcls, by rw [hcls]; rfl⟩
  · intro kind hds
    cases hsc : r.statusCode with
    | none =>
      cases kind <;> simp [Classifier.desiredStateResponse, hsc] at hds
    | some s =>
      cases kind
      case webhook =>
        have h1 : s = 422 ∧ r.hookMatchesPayloadUrl = true := by
          simpa [Classifier.desiredStateResponse, hsc, Bool.and_eq_true,
            beq_iff_eq] using hds
        simp [Classifier.classify, hsc, h1.1, h1.2, Outcome.isFailed]
      all_goals
        have h2 : Classifier.is2xx s = true := by
          simpa [Classifier.desiredStateResponse, hsc] using hds
        simp [Classifier.classify, hsc, h2, Outcome.isFailed]

/-- Witness for `classifier_idempotency` at the 422 existing-hook response
and the archive 200 response. -/
theorem classifier_idempotency_witness :
    Classifier.classify Classifier.ActionKind.webhook
        { statusCode := some 422, message := "Hook already exists on this repository",
          hookMatchesPayloadUrl := true } =
      Outcome.alreadySatisfied "Hook already exists on this repository" ∧
    (Classifier.classify Classifier.ActionKind.archive
        { statusCode := some 200, message := "", hookMatchesPayloadUrl := false }).isFailed
      = false :=
  ⟨((classifier_idempotency
      { statusCode := some 422, message := "Hook already exists on this repository",
        hookMatchesPayloadUrl := true }).1 rfl rfl).1,
    (classifier_idempotency
      { statusCode := some 200, message := "", hookMatchesPayloadUrl := false }).2
      Classifier.ActionKind.archive (by decide)⟩

/-- Claim C5: for every group listing (any pages), optional prefix filter
and limit, the Directory's `list` is sorted lexicographically by
repository name ascending; and specifically
`list("FOO", prefix="project")` over pages containing
`["project-z"], ["other"], ["project-a"]` (default limit 50) returns
`["project-a", "project-z"]` in that order. -/
theorem directory_list_sorted :
    (∀ (pages : List (List RepositoryRef)) (pfxFilter : Option String) (limit : Nat),
      List.Sorted (fun a b => nameLe a b = true) (Directory.list pages pfxFilter limit)) ∧
    Directory.list [["project-z"], ["other"], ["project-a"]] (some "project") 50 =
      ["project-a", "project-z"] :=
  ⟨fun _ _ _ => List.sorted_insertionSort _ _, by decide⟩

/-- Claim C6, counterexample: with a limit that truncates the listing, the
prefix-filtered call keeps a matching repository that the unfiltered call
has already cut away, so `list(group, prefix)` is not the prefix-filtered
subsequence of `list(group)`: over one page `["alpha", "project-b"]` with
limit 1, `list` with prefix `project` returns `["project-b"]` while
filtering `list` without prefix (= `["alpha"]`) returns `[]`. -/
theorem directory_filtering_cex :
    Directory.list [["alpha", "project-b"]] (some "project") 1 ≠
      (Directory.list [["alpha", "project-b"]] none 1).filter
        (fun n => nameStartsWith "project" n) := by
  decide

/-- Claim C6, amended: whenever the limit does not truncate the listing
(the fetched item count is at most `limit`), `list(group, prefix)` equals
exactly the subsequence of `list(group)` consisting of the repositories
whose name starts with the prefix (case-sensitive), in the same relative
order. -/
theorem directory_filtering_determinism (pages : List (List RepositoryRef))
    (pfx : String) (limit : Nat) (h : pages.flatten.length ≤ limit) :
    Directory.list pages (some pfx) limit =
      (Directory.list pages none limit).filter (fun n => nameStartsWith pfx n) := by
  unfold Directory.list
  simp only
  rw [List.take_of_length_le h,
    List.take_of_length_le (le_trans (List.length_filter_le _ _) h)]
  refine List.eq_of_perm_of_sorted (r := fun a b => nameLe a b = true) ?_ ?_ ?_
  · exact (List.perm_insertionSort _ _).trans
      (((List.perm_insertionSort _ pages.flatten).filter _).symm)
  · exact List.sorted_insertionSort _ _
  · exact List.Pairwise.filter _ (List.sorted_insertionSort _ pages.flatten)

/-- Witness for `directory_filtering_determinism` on a one-page listing
that the limit does not truncate. -/
theorem directory_filtering_determinism_witness :
    ([["b", "a"]] : List (List RepositoryRef)).flatten.length ≤ 2 ∧
    Directory.list [["b", "a"]] (some "a") 2 =
      (Directory.list [["b", "a"]] none 2).filter (fun n => nameStartsWith "a" n) :=
  ⟨by decide, directory_filtering_determinism [["b", "a"]] "a" 2 (by decide)⟩

/-- Claim C7: the process exit code derived from a finalized
MigrationReport is 0 if and only if the report contains no `Failed` entry
(every outcome is Applied or AlreadySatisfied), and it is 1 (non-zero)
whenever the report contains at least one `Failed` entry. -/
theorem exit_code_law (report : MigrationReport) :
    (Aggregator.exitCode report = 0 ↔ ∀ e ∈ report, e.snd.isFailed = false) ∧
    ((∃ e ∈ report, e.snd.isFailed = true) → Aggregator.exitCode report = 1) := by
  constructor
  · constructor
    · intro h0 e he
      by_contra hf
      have hpos : 0 < (Aggregator.summarize report).failed :=
        Aggregator.summarize_failed_pos he (by simpa using hf)
      simp [Aggregator.exitCode, hpos] at h0
    · intro hall
      have hnil : (report.filter (fun e => e.snd.isFailed)).length = 0 := by
        rw [List.length_eq_zero, List.filter_eq_nil]
        intro a ha
        simp [hall a ha]
      simp [Aggregator.exitCode, Aggregator.summarize, hnil]
  · rintro ⟨e, he, hf⟩
    have hpos : 0 < (Aggregator.summarize report).failed :=
      Aggregator.summarize_failed_pos he hf
    simp [Aggregator.exitCode, hpos]

/-- Witness for `exit_code_law` on a report with one Applied and one
Failed entry. -/
theorem exit_code_law_witness :
    (∃ e ∈ ([("a", Outcome.applied), ("b", Outcome.failed "x")] : MigrationReport),
      e.snd.isFailed = true) ∧
    Aggregator.exitCode [("a", Outcome.applied), ("b", Outcome.failed "x")] = 1 :=
  ⟨by decide, (exit_code_law _).2 (by decide)⟩

end Gl2gh
